import Mathlib

/-!
Verification of the restaurant order prediction engine (`predictor.py` / `api.py`).

The development shallowly embeds the prediction module: dates and the
`%Y-%m-%d` parse of `datetime.strptime`, the weather lookup with its 14-day
window, the per-item feature expansion, the one-hot encoding and schema
alignment (`pd.get_dummies` + `reindex`), an opaque row scorer standing for
`model.predict_proba`, and the aggregation/formatting stage (`groupby.mean`,
`sort_values`, `pivot`, `'{:.2%}'.format`).  External effects (the current
date, the weather provider response, the loaded artifacts, the holiday
calendar) are passed in explicitly as an environment, and the instrumented
result records whether the outbound weather call was issued.
-/

namespace Predictor

/-- A calendar date (proleptic Gregorian, as used by Python `datetime.date`). -/
structure Date where
  year : Nat
  month : Nat
  day : Nat
deriving DecidableEq, Repr

/-- Gregorian leap-year test. -/
def isLeapYear (y : Nat) : Bool :=
  y % 4 == 0 && (y % 100 != 0 || y % 400 == 0)

/-- Number of days in a month, as validated by the `datetime` constructor. -/
def daysInMonth (y m : Nat) : Nat :=
  if m = 2 then (if isLeapYear y then 29 else 28)
  else if m = 4 ∨ m = 6 ∨ m = 9 ∨ m = 11 then 30
  else 31

/-- Days since 1970-01-01 (rata die, civil-calendar algorithm).  This is the
value underlying Python's `date` subtraction: `(a - b).days = rataDie a - rataDie b`. -/
def rataDie (d : Date) : Int :=
  let y : Int := if d.month ≤ 2 then (d.year : Int) - 1 else (d.year : Int)
  let era : Int := (if 0 ≤ y then y else y - 399) / 400
  let yoe : Int := y - era * 400
  let mp : Int := ((d.month : Int) + 9) % 12
  let doy : Int := (153 * mp + 2) / 5 + (d.day : Int) - 1
  let doe : Int := yoe * 365 + yoe / 4 - yoe / 100 + doy
  era * 146097 + doe - 719468

/-- English weekday names indexed with 0 = Sunday, as produced by `strftime('%A')`. -/
def weekdayNames : List String :=
  ["Sunday", "Monday", "Tuesday", "Wednesday", "Thursday", "Friday", "Saturday"]

/-- Models `target_date.strftime('%A')`: the English weekday name.  1970-01-01
(rata die 0) was a Thursday. -/
def dayOfWeekName (d : Date) : String :=
  (weekdayNames.getD ((rataDie d + 4).emod 7).toNat "")

/-- Decimal value of a digit string (the conversion `int()` applies to a
matched `strptime` group). -/
def decVal (l : List Char) : Nat :=
  l.foldl (fun a c => a * 10 + (c.toNat - 48)) 0

/-- Split a character list on `'-'` (the shape `str.split('-')` /
`s.splitOn "-"` gives for a single-character separator). -/
def splitDash : List Char → List (List Char)
  | [] => [[]]
  | c :: cs =>
    if c = '-' then [] :: splitDash cs
    else
      match splitDash cs with
      | [] => [[c]]
      | p :: ps => (c :: p) :: ps

/-- Models `datetime.strptime(s, '%Y-%m-%d').date()`, returning `none` on `ValueError`.
CPython's `_strptime` compiles the format to the anchored regex
`(\d\d\d\d)-(1[0-2]|0[1-9]|[1-9])-(3[01]|[12]\d|0[1-9]|[1-9])` — the year is
exactly four digits, while month and day may be one or two digits (zero
padding is NOT required on parse) — and the `datetime` constructor then
validates the day against the month length and requires `year ≥ 1`. -/
def parseDate (s : String) : Option Date :=
  match splitDash s.data with
  | [ys, ms, ds] =>
    if ys.length = 4 ∧ ys.all Char.isDigit ∧
       1 ≤ ms.length ∧ ms.length ≤ 2 ∧ ms.all Char.isDigit ∧
       1 ≤ ds.length ∧ ds.length ≤ 2 ∧ ds.all Char.isDigit then
      let y := decVal ys
      let m := decVal ms
      let d := decVal ds
      if 1 ≤ y ∧ 1 ≤ m ∧ m ≤ 12 ∧ 1 ≤ d ∧ d ≤ daysInMonth y m then
        some ⟨y, m, d⟩
      else none
    else none
  | _ => none

/-! ## Weather lookup (`get_hourly_weather_forecast`) -/

/-- One hour-slice of weather attributes, the fields `generate_predictions`
reads from the provider's JSON.  Numeric values are modelled as rationals. -/
structure WeatherSlice where
  temp_c : ℚ
  wind_kph : ℚ
  precip_mm : ℚ
  cloud : ℚ
  humidity : ℚ
  pressure_mb : ℚ
deriving DecidableEq, Repr

/-- The outcome of the single outbound HTTP call, as far as the `try` block
can observe it: either some exception before/while decoding (transport
failure, `raise_for_status`, JSON parse), or a decoded
`forecast.forecastday` list, each day carrying its `hour` array. -/
inductive ApiResponse where
  | failure (msg : String)
  | success (forecastdays : List (List WeatherSlice))
deriving DecidableEq, Repr

/-- Result of the weather helper: the error dict `{"error": msg}` or an hour slice. -/
inductive WeatherResult where
  | error (msg : String)
  | ok (slice : WeatherSlice)
deriving DecidableEq, Repr

def outOfRangeMsg : String := "Date must be within the next 14 days."

def apiErrorPrefix : String := "API or data parsing error: "

def indexErrorMsg : String := "list index out of range"

/-- Models `get_hourly_weather_forecast(location, target_date, target_hour)`.
`days = (target_date - datetime.today().date()).days + 1`; if `days` is not
in `(0, 14]` the error dict is returned without any outbound call.  Otherwise
one call is issued and `response.json()['forecast']['forecastday'][-1]['hour'][target_hour]`
is selected; any exception is caught and wrapped into the error dict.  The
returned Boolean records whether the outbound call was issued. -/
def fetchSlice (api : ApiResponse) (target_hour : Nat) : WeatherResult :=
  match api with
  | .failure m => .error (apiErrorPrefix ++ m)
  | .success fds =>
    match fds.getLast? with
    | none => .error (apiErrorPrefix ++ indexErrorMsg)
    | some lastDay =>
      match lastDay.get? target_hour with
      | none => .error (apiErrorPrefix ++ indexErrorMsg)
      | some slice => .ok slice

def get_hourly_weather_forecast (api : ApiResponse) (today target : Date)
    (target_hour : Nat) : Bool × WeatherResult :=
  let days : Int := rataDie target - rataDie today + 1
  if 0 < days ∧ days ≤ 14 then (true, fetchSlice api target_hour)
  else (false, .error outOfRangeMsg)

/-! ## Feature building -/

/-- The per-request calendar/weather facts shared by every scenario row. -/
structure Facts where
  hour : Nat
  day_of_the_week : String
  day_type : String
  slice : WeatherSlice
  is_holiday : Bool
  is_special_event : Bool
deriving DecidableEq, Repr

/-- One row of the scenario frame `future_df`. -/
structure Scenario where
  hour : Nat
  food_item_name : String
  food_item_category : String
  day_of_the_week : String
  day_type : String
  temperature_c : ℚ
  wind_kph : ℚ
  precipitation_mm : ℚ
  cloud : ℚ
  humidity : ℚ
  pressure_mb : ℚ
  is_holiday : Bool
  is_special_event : Bool
  order_type : String
deriving DecidableEq, Repr

/-- The `base_scenario` dict extended with an `order_type` tag. -/
def mkScenario (f : Facts) (it : String × String) (ot : String) : Scenario :=
  { hour := f.hour
    food_item_name := it.1
    food_item_category := it.2
    day_of_the_week := f.day_of_the_week
    day_type := f.day_type
    temperature_c := f.slice.temp_c
    wind_kph := f.slice.wind_kph
    precipitation_mm := f.slice.precip_mm
    cloud := f.slice.cloud
    humidity := f.slice.humidity
    pressure_mb := f.slice.pressure_mb
    is_holiday := f.is_holiday
    is_special_event := f.is_special_event
    order_type := ot }

/-- The scenario loop: for each item of `unique_items`, append a `'Dine In'`
row and then a `'Take Away'` row. -/
def buildScenarios (f : Facts) : List (String × String) → List Scenario
  | [] => []
  | it :: rest =>
      mkScenario f it "Dine In" :: mkScenario f it "Take Away" :: buildScenarios f rest

/-- Helper for `dropDuplicates`: drop every element already seen. -/
def dropDupAux {α : Type} [DecidableEq α] (seen : List α) : List α → List α
  | [] => []
  | x :: xs => if x ∈ seen then dropDupAux seen xs else x :: dropDupAux (x :: seen) xs

/-- Models `DataFrame.drop_duplicates`: keep the first occurrence of each element. -/
def dropDuplicates {α : Type} [DecidableEq α] (l : List α) : List α :=
  dropDupAux [] l

/-! ## One-hot encoding and schema alignment -/

/-- Lexicographic comparison of character lists by code point — the order
Python uses to compare `str` values and pandas uses to sort string labels. -/
def strLtB : List Char → List Char → Bool
  | [], [] => false
  | [], _ :: _ => true
  | _ :: _, [] => false
  | a :: as, b :: bs => if a < b then true else if b < a then false else strLtB as bs

/-- Comparison `x < y` on Python strings. -/
def stringLt (x y : String) : Bool := strLtB x.data y.data

/-- Stable ascending insertion of a string into a list. -/
def insertAsc (x : String) : List String → List String
  | [] => [x]
  | y :: ys => if stringLt y x then y :: insertAsc x ys else x :: y :: ys

/-- Ascending insertion sort on strings (the order `pd.get_dummies` gives the
categories of a column: sorted unique values). -/
def sortStrings : List String → List String
  | [] => []
  | x :: xs => insertAsc x (sortStrings xs)

/-- The distinct values of the five categorical columns across the scenario
frame, each sorted ascending, exactly the category levels `pd.get_dummies`
derives. -/
structure Ctx where
  names : List String
  cats : List String
  dows : List String
  dts : List String
  ots : List String
deriving DecidableEq, Repr

def mkCtx (rows : List Scenario) : Ctx :=
  { names := sortStrings (dropDuplicates (rows.map (·.food_item_name)))
    cats := sortStrings (dropDuplicates (rows.map (·.food_item_category)))
    dows := sortStrings (dropDuplicates (rows.map (·.day_of_the_week)))
    dts := sortStrings (dropDuplicates (rows.map (·.day_type)))
    ots := sortStrings (dropDuplicates (rows.map (·.order_type))) }

def numericCells (s : Scenario) : List (String × ℚ) :=
  [("hour", (s.hour : ℚ)), ("temperature_c", s.temperature_c),
   ("wind_kph", s.wind_kph), ("precipitation_mm", s.precipitation_mm),
   ("cloud", s.cloud), ("humidity", s.humidity), ("pressure_mb", s.pressure_mb),
   ("is_holiday", if s.is_holiday then 1 else 0),
   ("is_special_event", if s.is_special_event then 1 else 0)]

def dummyCells (pre : String) (levels : List String) (v : String) : List (String × ℚ) :=
  levels.map (fun lv => (pre ++ lv, if v = lv then (1 : ℚ) else 0))

/-- One row of `pd.get_dummies(future_df, columns=[...])`: the passthrough
numeric/Boolean columns followed by one indicator block per categorical
column (`<col>_<level>` naming), in the frame's column order. -/
def encodedRow (ctx : Ctx) (s : Scenario) : List (String × ℚ) :=
  numericCells s
    ++ dummyCells "food_item_name_" ctx.names s.food_item_name
    ++ dummyCells "food_item_category_" ctx.cats s.food_item_category
    ++ dummyCells "day_of_the_week_" ctx.dows s.day_of_the_week
    ++ dummyCells "day_type_" ctx.dts s.day_type
    ++ dummyCells "order_type_" ctx.ots s.order_type

/-- The column list of the encoded frame. -/
def encodedCols (ctx : Ctx) : List String :=
  ["hour", "temperature_c", "wind_kph", "precipitation_mm", "cloud",
   "humidity", "pressure_mb", "is_holiday", "is_special_event"]
    ++ ctx.names.map (fun lv => "food_item_name_" ++ lv)
    ++ ctx.cats.map (fun lv => "food_item_category_" ++ lv)
    ++ ctx.dows.map (fun lv => "day_of_the_week_" ++ lv)
    ++ ctx.dts.map (fun lv => "day_type_" ++ lv)
    ++ ctx.ots.map (fun lv => "order_type_" ++ lv)

/-- Models `DataFrame.reindex(columns=model_columns, fill_value=0)` applied to one
row: project the cells onto the schema's columns in the schema's order,
defaulting a column absent from the frame to `0`. -/
def reindexRow (schema : List String) (cells : List (String × ℚ)) : List (String × ℚ) :=
  schema.map (fun c => (c, (cells.lookup c).getD 0))

/-! ## Probability formatting (`'{:.2%}'.format`) -/

def natDigitChar (d : Nat) : Char := Char.ofNat (48 + d)

/-- Decimal digits of `n`, fuel-structured so that it reduces in the kernel. -/
def natDigitsAux : Nat → Nat → List Char
  | 0, _ => []
  | fuel + 1, n =>
      if n < 10 then [natDigitChar n]
      else natDigitsAux fuel (n / 10) ++ [natDigitChar (n % 10)]

/-- Standard decimal rendering of a natural number. -/
def natDecStr (n : Nat) : String := ⟨natDigitsAux (n + 1) n⟩

/-- Exactly-two-digit rendering of `n < 100` (the fractional part of a
`.2` format). -/
def twoDigitStr (n : Nat) : String := ⟨[natDigitChar (n / 10), natDigitChar (n % 10)]⟩

/-- Models `'{:.2%}'.format(q)`: multiply by 100, render with two decimals, append
`%`.  Rounding to the second decimal is modelled as rounding to the nearest
integer of `q * 10000` (round-half-up; CPython rounds the underlying double
half-to-even, which agrees except on exact decimal ties). -/
def formatPercent (q : ℚ) : String :=
  let n : Int := round (q * 10000)
  let m : Nat := n.natAbs
  let core : String := natDecStr (m / 100) ++ "." ++ twoDigitStr (m % 100) ++ "%"
  if n < 0 then "-" ++ core else core

/-- After the dot of `\d+\.\d{2}%` there must be exactly two digits and a
percent sign. -/
def patTail : List Char → Bool
  | [a, b, '%'] => a.isDigit && b.isDigit
  | _ => false

/-- Tail matcher for the regex `\d+\.\d{2}%`: after the leading digits there
must be a dot, exactly two digits, and a percent sign. -/
def patRest : List Char → Bool
  | [] => false
  | c :: cs => if c = '.' then patTail cs else c.isDigit && patRest cs

/-- Full-match test for the pattern `\d+\.\d{2}%`. -/
def percentPatternB (s : String) : Bool :=
  match s.data with
  | [] => false
  | c :: cs => c.isDigit && patRest cs

/-! ## Aggregation (`groupby.mean`, `sort_values`, `pivot`) -/

/-- Mean of a list of rationals (`Series.mean`). -/
def listMean (l : List ℚ) : ℚ := l.sum / (l.length : ℚ)

/-- Models `future_df.groupby('food_item_name')['probability'].mean().reset_index()`:
pandas sorts the group keys ascending; each key is paired with the mean of
the probabilities of its rows. -/
def groupMeans (scored : List (String × ℚ)) : List (String × ℚ) :=
  (sortStrings (dropDuplicates (scored.map Prod.fst))).map
    (fun n => (n, listMean ((scored.filter (fun p => p.1 == n)).map Prod.snd)))

/-- Insertion step of the descending sort on the probability column: walk
past strictly larger probabilities and insert before the first row whose
probability is `≤` — equal keys keep their incoming relative order. -/
def insertDesc (x : String × ℚ) : List (String × ℚ) → List (String × ℚ)
  | [] => [x]
  | y :: ys => if x.2 < y.2 then y :: insertDesc x ys else x :: y :: ys

/-- Models `sort_values('probability', ascending=False)`.  The pandas
default `kind='quicksort'` (numpy introsort) is unstable for tie groups
above its small-array insertion-sort cutoff, so the program fixes no tie
order; this embedding uses an insertion sort, and the claim theorems draw
only conclusions that are invariant under permuting tied elements
(descending order, membership, element values). -/
def sortDesc : List (String × ℚ) → List (String × ℚ)
  | [] => []
  | x :: xs => insertDesc x (sortDesc xs)

/-- First probability recorded for the `(item, order type)` cell, or the
`fillna(0)` default when the combination is absent. -/
def pivotCell (rows : List (String × String × ℚ)) (n ot : String) : ℚ :=
  ((rows.find? (fun r => r.1 == n && r.2.1 == ot)).map (fun r => r.2.2)).getD 0

/-- Models `future_df.pivot(index='food_item_name', columns='order_type',
values='probability').reset_index().fillna(0)`: fails (raises `ValueError`,
modelled as `none`) when the `(index, columns)` pairs are not unique;
otherwise yields one row per item name, sorted ascending by name, with the
`'Dine In'` and `'Take Away'` cells. -/
def pivotDetailed (rows : List (String × String × ℚ)) :
    Option (List (String × ℚ × ℚ)) :=
  if (rows.map (fun r => (r.1, r.2.1))).Nodup then
    some ((sortStrings (dropDuplicates (rows.map Prod.fst))).map
      (fun n => (n, pivotCell rows n "Dine In", pivotCell rows n "Take Away")))
  else none

/-! ## The prediction service (`generate_predictions`) -/

/-- The success envelope (step 6 of `generate_predictions`). -/
structure Output where
  target_date : String
  target_hour : Nat
  is_special_event : Bool
  is_public_holiday : Bool
  day_of_week : String
  temperature_c : ℚ
  precipitation_mm : ℚ
  wind_kph : ℚ
  cloud_percent : ℚ
  overall_prediction : List (String × String)
  detailed_prediction : List (String × String × String)
deriving DecidableEq, Repr

/-- Result of one request: a caught business error (the `{"error": msg}`
dict), an unhandled Python exception, or the success envelope. -/
inductive Result where
  | error (msg : String)
  | crash
  | output (o : Output)
deriving DecidableEq, Repr

/-- The read-only process-wide state plus the per-request external world:
current date, the loaded menu reference rows (in load order), the model's
column schema, the classifier as an opaque row scorer, the holiday calendar,
and the weather provider's behaviour for this request. -/
structure Env where
  today : Date
  api : ApiResponse
  menu : List (String × String)
  modelColumns : List String
  score : List ℚ → ℚ
  holiday : Date → Bool

/-- The request body accepted by the facade. -/
structure Request where
  target_date : String
  target_hour : Nat
  is_special_event : Bool
deriving DecidableEq, Repr

def invalidDateMsg : String := "Invalid date format. Please use YYYY-MM-DD."

/-- Calendar facts and weather slice shared by every scenario of a request. -/
def factsOf (env : Env) (req : Request) (target : Date) (slice : WeatherSlice) : Facts :=
  let dow := dayOfWeekName target
  { hour := req.target_hour
    day_of_the_week := dow
    day_type := if dow = "Saturday" ∨ dow = "Sunday" then "Weekend" else "Weekday"
    slice := slice
    is_holiday := env.holiday target
    is_special_event := req.is_special_event }

/-- The `unique_items` set paired through the scenario loop: the frame `future_df`. -/
def scenariosOf (env : Env) (req : Request) (target : Date) (slice : WeatherSlice) :
    List Scenario :=
  buildScenarios (factsOf env req target slice) (dropDuplicates env.menu)

def ctxOf (env : Env) (req : Request) (target : Date) (slice : WeatherSlice) : Ctx :=
  mkCtx (scenariosOf env req target slice)

/-- Models `model.predict_proba(future_aligned)[:, 1]` for one aligned row. -/
def rowProb (env : Env) (ctx : Ctx) (s : Scenario) : ℚ :=
  env.score ((reindexRow env.modelColumns (encodedRow ctx s)).map Prod.snd)

/-- The frame `future_df` with its `probability` column attached. -/
def scoredOf (env : Env) (req : Request) (target : Date) (slice : WeatherSlice) :
    List (Scenario × ℚ) :=
  (scenariosOf env req target slice).map
    (fun s => (s, rowProb env (ctxOf env req target slice) s))

/-- The overall ranking before formatting: grouped means sorted descending. -/
def overallPairs (env : Env) (req : Request) (target : Date) (slice : WeatherSlice) :
    List (String × ℚ) :=
  sortDesc (groupMeans ((scoredOf env req target slice).map
    (fun p => (p.1.food_item_name, p.2))))

/-- The pivoted detailed breakdown before formatting. -/
def detailedOf (env : Env) (req : Request) (target : Date) (slice : WeatherSlice) :
    Option (List (String × ℚ × ℚ)) :=
  pivotDetailed ((scoredOf env req target slice).map
    (fun p => (p.1.food_item_name, p.1.order_type, p.2)))

/-- The success envelope (step 6 of `generate_predictions`): echoed request
metadata, the weather conditions actually used, and the two formatted
prediction tables. -/
def successOutput (env : Env) (req : Request) (target : Date) (slice : WeatherSlice)
    (piv : List (String × ℚ × ℚ)) : Output :=
  { target_date := req.target_date
    target_hour := req.target_hour
    is_special_event := req.is_special_event
    is_public_holiday := env.holiday target
    day_of_week := dayOfWeekName target
    temperature_c := slice.temp_c
    precipitation_mm := slice.precip_mm
    wind_kph := slice.wind_kph
    cloud_percent := slice.cloud
    overall_prediction :=
      (overallPairs env req target slice).map (fun p => (p.1, formatPercent p.2))
    detailed_prediction :=
      piv.map (fun r => (r.1, formatPercent r.2.1, formatPercent r.2.2)) }

/-- Steps 2–6 of `generate_predictions`, after the date has been parsed and
the weather slice fetched.  An empty `unique_items` set makes
`pd.get_dummies` raise `KeyError` on the column-less frame, and duplicate
`(item, order type)` index pairs make `pivot` raise `ValueError`; both are
unhandled exceptions, modelled as `Result.crash`. -/
def gpCore (env : Env) (req : Request) (target : Date) (slice : WeatherSlice) : Result :=
  if scenariosOf env req target slice = [] then .crash
  else
    match detailedOf env req target slice with
    | none => .crash
    | some piv => .output (successOutput env req target slice piv)

/-- Models `generate_predictions(target_date_str, target_hour, is_special_event)`.
The Boolean of the pair records whether the outbound weather call was
issued (instrumentation; the `Result` is the function's return value). -/
def generate_predictions (env : Env) (req : Request) : Bool × Result :=
  match parseDate req.target_date with
  | none => (false, .error invalidDateMsg)
  | some target =>
    match get_hourly_weather_forecast env.api env.today target req.target_hour with
    | (called, .error m) => (called, .error m)
    | (called, .ok slice) => (called, gpCore env req target slice)

/-- Modelled from the spec: a date string "exactly in `YYYY-MM-DD` format" —
four digits, a dash, two digits, a dash, two digits.  (The spec's claimed
precondition for successful parsing; the code's `strptime` is laxer.) -/
def specExactFormat (s : String) : Bool :=
  match s.data with
  | [y1, y2, y3, y4, '-', m1, m2, '-', d1, d2] =>
      [y1, y2, y3, y4, m1, m2, d1, d2].all Char.isDigit
  | _ => false

/-! ## Concrete fixtures used to instantiate the theorems -/

/-- A mocked weather hour-slice. -/
def slice0 : WeatherSlice := ⟨22, 5, 0, 10, 50, 1012⟩

/-- A successful provider response: one forecast day with one hour slice. -/
def api0 : ApiResponse := .success [[slice0]]

/-- A base environment: current date 2024-12-20, one menu item, a small
schema and a constant-zero scorer. -/
def env0 : Env :=
  { today := ⟨2024, 12, 20⟩
    api := api0
    menu := [("Pizza", "Main")]
    modelColumns := ["hour", "food_item_name_Pizza", "order_type_Dine In"]
    score := fun _ => 0
    holiday := fun _ => false }

def req0 : Request := ⟨"2024-12-25", 0, false⟩

def d0 : Date := ⟨2024, 12, 25⟩

/-- The pivot table produced under `env0`/`req0`. -/
def piv0 : List (String × ℚ × ℚ) := [("Pizza", 0, 0)]

/-- Menu loaded in the order B before A (both items score equally under the
constant scorer). -/
def env8 : Env := { env0 with menu := [("B", "C"), ("A", "C")] }

def piv8 : List (String × ℚ × ℚ) := [("A", 0, 0), ("B", 0, 0)]

/-- One item name listed under two categories. -/
def envDup : Env := { env0 with menu := [("X", "A"), ("X", "B")] }

/-- A transport failure from the weather provider. -/
def envFail : Env := { env0 with api := .failure "boom" }

/-- Current date near 2024-01-05, for exercising the lax `strptime` parse. -/
def envJan : Env := { env0 with today := ⟨2024, 1, 1⟩ }

def reqBad : Request := ⟨"25-12-2024", 0, false⟩

def reqLax : Request := ⟨"2024-1-5", 0, false⟩

def reqFar : Request := ⟨"2025-06-25", 0, false⟩

/-- A concrete scenario row. -/
def sc0 : Scenario := mkScenario (factsOf env0 req0 d0 slice0) ("Pizza", "Main") "Dine In"

/-! ## Lemmas: `dropDuplicates` -/

theorem mem_dropDupAux {α : Type} [DecidableEq α] (a : α) :
    ∀ (l seen : List α), a ∈ dropDupAux seen l ↔ a ∈ l ∧ a ∉ seen := by
  intro l
  induction l with
  | nil => intro seen; simp [dropDupAux]
  | cons x xs ih =>
    intro seen
    by_cases hx : x ∈ seen
    · simp only [dropDupAux, if_pos hx, ih, List.mem_cons]
      constructor
      · rintro ⟨h1, h2⟩; exact ⟨Or.inr h1, h2⟩
      · rintro ⟨h1 | h1, h2⟩
        · exact absurd (h1 ▸ hx) h2
        · exact ⟨h1, h2⟩
    · simp only [dropDupAux, if_neg hx, List.mem_cons, ih]
      constructor
      · rintro (rfl | ⟨h1, h2⟩)
        · exact ⟨Or.inl rfl, hx⟩
        · exact ⟨Or.inr h1, fun hs => h2 (Or.inr hs)⟩
      · rintro ⟨rfl | h1, h2⟩
        · exact Or.inl rfl
        · by_cases hax : a = x
          · exact Or.inl hax
          · exact Or.inr ⟨h1, by simp [List.mem_cons, hax, h2]⟩

theorem dropDupAux_nodup {α : Type} [DecidableEq α] :
    ∀ (l seen : List α), (dropDupAux seen l).Nodup := by
  intro l
  induction l with
  | nil => intro seen; simp [dropDupAux]
  | cons x xs ih =>
    intro seen
    by_cases hx : x ∈ seen
    · simpa [dropDupAux, hx] using ih seen
    · simp only [dropDupAux, if_neg hx, List.nodup_cons]
      refine ⟨fun hmem => ?_, ih _⟩
      exact ((mem_dropDupAux x xs (x :: seen)).1 hmem).2 (List.mem_cons_self x seen)

theorem mem_dropDuplicates {α : Type} [DecidableEq α] (a : α) (l : List α) :
    a ∈ dropDuplicates l ↔ a ∈ l := by
  simp [dropDuplicates, mem_dropDupAux]

theorem dropDuplicates_nodup {α : Type} [DecidableEq α] (l : List α) :
    (dropDuplicates l).Nodup :=
  dropDupAux_nodup l []

/-! ## Lemmas: the two insertion sorts -/

theorem strLtB_asymm :
    ∀ (l1 l2 : List Char), strLtB l1 l2 = true → strLtB l2 l1 = false := by
  intro l1
  induction l1 with
  | nil =>
    intro l2 h
    cases l2 with
    | nil => exact absurd h (by simp [strLtB])
    | cons b bs => simp [strLtB]
  | cons a as ih =>
    intro l2 h
    cases l2 with
    | nil => exact absurd h (by simp [strLtB])
    | cons b bs =>
      rw [strLtB] at h ⊢
      by_cases hab : a < b
      · rw [if_neg (lt_asymm hab), if_pos hab]
      · rw [if_neg hab] at h
        by_cases hba : b < a
        · rw [if_pos hba] at h
          exact absurd h (by simp)
        · rw [if_neg hba] at h
          rw [if_neg hba, if_neg hab]
          exact ih bs h

theorem strLtB_le_trans :
    ∀ (a b c : List Char), strLtB b a = false → strLtB c b = false →
      strLtB c a = false := by
  intro a
  induction a with
  | nil =>
    intro b c h1 h2
    cases c with
    | nil => rfl
    | cons z zs => rfl
  | cons x xs ih =>
    intro b c h1 h2
    cases b with
    | nil => exact absurd h1 (by simp [strLtB])
    | cons y ys =>
      cases c with
      | nil => exact absurd h2 (by simp [strLtB])
      | cons z zs =>
        rw [strLtB] at h1 h2 ⊢
        by_cases hyx : y < x
        · rw [if_pos hyx] at h1
          exact absurd h1 (by simp)
        · rw [if_neg hyx] at h1
          by_cases hzy : z < y
          · rw [if_pos hzy] at h2
            exact absurd h2 (by simp)
          · rw [if_neg hzy] at h2
            have hxz_le : x ≤ z :=
              le_trans (le_of_not_lt hyx) (le_of_not_lt hzy)
            rw [if_neg (not_lt.2 hxz_le)]
            by_cases hxz : x < z
            · rw [if_pos hxz]
            · rw [if_neg hxz]
              have hxy : x = y := le_antisymm (le_of_not_lt hyx)
                (le_trans (le_of_not_lt hzy) (le_of_not_lt hxz))
              rw [if_neg (show ¬ x < y by rw [hxy]; exact lt_irrefl y)] at h1
              rw [if_neg (show ¬ y < z by rw [← hxy]; exact hxz)] at h2
              exact ih ys zs h1 h2

theorem strLtB_total_of_ne :
    ∀ (l1 l2 : List Char), strLtB l2 l1 = false → l1 ≠ l2 →
      strLtB l1 l2 = true := by
  intro l1
  induction l1 with
  | nil =>
    intro l2 h hne
    cases l2 with
    | nil => exact absurd rfl hne
    | cons b bs => rfl
  | cons a as ih =>
    intro l2 h hne
    cases l2 with
    | nil => exact absurd h (by simp [strLtB])
    | cons b bs =>
      rw [strLtB] at h ⊢
      by_cases hab : a < b
      · rw [if_pos hab]
      · rw [if_neg hab]
        by_cases hba : b < a
        · rw [if_pos hba] at h
          exact absurd h (by simp)
        · rw [if_neg hba] at h
          have heq : a = b := le_antisymm (le_of_not_lt hba) (le_of_not_lt hab)
          subst heq
          rw [if_neg hab] at h
          rw [if_neg hab]
          exact ih bs h (fun hcontra => hne (by rw [hcontra]))

theorem stringLt_asymm (x y : String) (h : stringLt x y = true) :
    stringLt y x = false :=
  strLtB_asymm x.data y.data h

theorem stringLt_le_trans (x y z : String) (h1 : stringLt y x = false)
    (h2 : stringLt z y = false) : stringLt z x = false :=
  strLtB_le_trans x.data y.data z.data h1 h2

theorem stringLt_total_of_ne (x y : String) (h : stringLt y x = false)
    (hne : x ≠ y) : stringLt x y = true := by
  refine strLtB_total_of_ne x.data y.data h (fun hd => hne ?_)
  cases x with
  | mk dx =>
    cases y with
    | mk dy => exact congrArg String.mk (show dx = dy from hd)

theorem insertAsc_perm (x : String) (l : List String) :
    List.Perm (insertAsc x l) (x :: l) := by
  induction l with
  | nil => exact List.Perm.refl _
  | cons y ys ih =>
    by_cases h : stringLt y x = true
    · simpa [insertAsc, h] using (ih.cons y).trans (List.Perm.swap x y ys)
    · simp [insertAsc, h]

theorem sortStrings_perm (l : List String) : List.Perm (sortStrings l) l := by
  induction l with
  | nil => exact List.Perm.refl _
  | cons x xs ih => exact (insertAsc_perm x (sortStrings xs)).trans (ih.cons x)

theorem insertAsc_pairwise_le (x : String) (l : List String)
    (h : l.Pairwise (fun u v => stringLt v u = false)) :
    (insertAsc x l).Pairwise (fun u v => stringLt v u = false) := by
  induction l with
  | nil => simp [insertAsc]
  | cons y ys ih =>
    rw [List.pairwise_cons] at h
    obtain ⟨h1, h2⟩ := h
    by_cases hyx : stringLt y x = true
    · rw [insertAsc, if_pos hyx, List.pairwise_cons]
      refine ⟨fun z hz => ?_, ih h2⟩
      rcases List.mem_cons.1 ((insertAsc_perm x ys).mem_iff.1 hz) with rfl | hz'
      · exact stringLt_asymm y z hyx
      · exact h1 z hz'
    · rw [insertAsc, if_neg hyx, List.pairwise_cons]
      have hyx' : stringLt y x = false := by
        cases hb : stringLt y x
        · rfl
        · exact absurd hb hyx
      refine ⟨fun z hz => ?_, List.pairwise_cons.2 ⟨h1, h2⟩⟩
      rcases List.mem_cons.1 hz with rfl | hz'
      · exact hyx'
      · exact stringLt_le_trans x y z hyx' (h1 z hz')

theorem sortStrings_pairwise_le (l : List String) :
    (sortStrings l).Pairwise (fun u v => stringLt v u = false) := by
  induction l with
  | nil => simp [sortStrings]
  | cons x xs ih => exact insertAsc_pairwise_le x (sortStrings xs) ih

theorem sortStrings_pairwise_lt (l : List String) (h : l.Nodup) :
    (sortStrings l).Pairwise (fun u v => stringLt u v = true) := by
  have hn : (sortStrings l).Nodup := ((sortStrings_perm l).nodup_iff).2 h
  have := (sortStrings_pairwise_le l).and hn
  exact this.imp (fun hab => stringLt_total_of_ne _ _ hab.1 hab.2)

theorem insertDesc_perm (x : String × ℚ) (l : List (String × ℚ)) :
    List.Perm (insertDesc x l) (x :: l) := by
  induction l with
  | nil => exact List.Perm.refl _
  | cons y ys ih =>
    by_cases h : x.2 < y.2
    · simpa [insertDesc, h] using (ih.cons y).trans (List.Perm.swap x y ys)
    · simp [insertDesc, h]

theorem sortDesc_perm (l : List (String × ℚ)) : List.Perm (sortDesc l) l := by
  induction l with
  | nil => exact List.Perm.refl _
  | cons x xs ih => exact (insertDesc_perm x (sortDesc xs)).trans (ih.cons x)

theorem insertDesc_sorted (x : String × ℚ) (l : List (String × ℚ))
    (h : l.Pairwise (fun a b => b.2 ≤ a.2)) :
    (insertDesc x l).Pairwise (fun a b => b.2 ≤ a.2) := by
  induction l with
  | nil => simp [insertDesc]
  | cons y ys ih =>
    rw [List.pairwise_cons] at h
    obtain ⟨h1, h2⟩ := h
    by_cases hxy : x.2 < y.2
    · rw [insertDesc, if_pos hxy, List.pairwise_cons]
      refine ⟨fun z hz => ?_, ih h2⟩
      rcases List.mem_cons.1 ((insertDesc_perm x ys).mem_iff.1 hz) with rfl | hz'
      · exact le_of_lt hxy
      · exact h1 z hz'
    · rw [insertDesc, if_neg hxy, List.pairwise_cons]
      refine ⟨fun z hz => ?_, List.pairwise_cons.2 ⟨h1, h2⟩⟩
      rcases List.mem_cons.1 hz with rfl | hz'
      · exact le_of_not_lt hxy
      · exact le_trans (h1 z hz') (le_of_not_lt hxy)

theorem sortDesc_sorted (l : List (String × ℚ)) :
    (sortDesc l).Pairwise (fun a b => b.2 ≤ a.2) := by
  induction l with
  | nil => simp [sortDesc]
  | cons x xs ih => exact insertDesc_sorted x (sortDesc xs) ih

/-- Stability of the descending insertion sort: any relation `T` that holds
automatically between a strictly-larger and a strictly-smaller key is
preserved from input to output — in particular tie order is preserved. -/
theorem insertDesc_pairwise (T : String × ℚ → String × ℚ → Prop)
    (hT : ∀ a b, b.2 < a.2 → T a b) (x : String × ℚ) (l : List (String × ℚ))
    (hx : ∀ z ∈ l, T x z) (h : l.Pairwise T) : (insertDesc x l).Pairwise T := by
  induction l with
  | nil => simp [insertDesc]
  | cons y ys ih =>
    rw [List.pairwise_cons] at h
    obtain ⟨h1, h2⟩ := h
    by_cases hxy : x.2 < y.2
    · rw [insertDesc, if_pos hxy, List.pairwise_cons]
      refine ⟨fun z hz => ?_, ih (fun z hz => hx z (List.mem_cons_of_mem _ hz)) h2⟩
      rcases List.mem_cons.1 ((insertDesc_perm x ys).mem_iff.1 hz) with rfl | hz'
      · exact hT y z hxy
      · exact h1 z hz'
    · rw [insertDesc, if_neg hxy, List.pairwise_cons]
      exact ⟨hx, List.pairwise_cons.2 ⟨h1, h2⟩⟩

theorem sortDesc_pairwise (T : String × ℚ → String × ℚ → Prop)
    (hT : ∀ a b, b.2 < a.2 → T a b) (l : List (String × ℚ))
    (h : l.Pairwise T) : (sortDesc l).Pairwise T := by
  induction l with
  | nil => simp [sortDesc]
  | cons x xs ih =>
    rw [List.pairwise_cons] at h
    obtain ⟨h1, h2⟩ := h
    exact insertDesc_pairwise T hT x (sortDesc xs)
      (fun z hz => h1 z ((sortDesc_perm xs).mem_iff.1 hz)) (ih h2)

/-! ## Lemmas: feature building -/

theorem length_buildScenarios (f : Facts) (items : List (String × String)) :
    (buildScenarios f items).length = 2 * items.length := by
  induction items with
  | nil => simp [buildScenarios]
  | cons it rest ih => simp [buildScenarios, ih]; omega

theorem mem_buildScenarios (f : Facts) (items : List (String × String))
    (s : Scenario) (hs : s ∈ buildScenarios f items) :
    (s.food_item_name, s.food_item_category) ∈ items := by
  induction items with
  | nil => simp [buildScenarios] at hs
  | cons it rest ih =>
    rcases List.mem_cons.1 hs with rfl | hs'
    · simp [mkScenario]
    · rcases List.mem_cons.1 hs' with rfl | hs''
      · simp [mkScenario]
      · exact List.mem_cons_of_mem _ (ih hs'')

/-- The scenario names, annotated by any per-row function `g`: each item of
the list contributes its name twice, once per order type. -/
theorem mem_buildScenarios_annotated (f : Facts) (g : Scenario → ℚ)
    (items : List (String × String)) (p : String × ℚ)
    (hp : p ∈ (buildScenarios f items).map (fun s => (s.food_item_name, g s))) :
    p.1 ∈ items.map Prod.fst := by
  obtain ⟨s, hs, rfl⟩ := List.mem_map.1 hp
  exact List.mem_map.2 ⟨_, mem_buildScenarios f items s hs, rfl⟩

/-- C2's core: with distinct `(name, category)` pairs, the rows selected for
one item are exactly its `'Dine In'` row followed by its `'Take Away'` row. -/
theorem buildScenarios_filter (f : Facts) (items : List (String × String))
    (hnd : items.Nodup) (it : String × String) (hit : it ∈ items) :
    (buildScenarios f items).filter
        (fun s => s.food_item_name == it.1 && s.food_item_category == it.2)
      = [mkScenario f it "Dine In", mkScenario f it "Take Away"] := by
  induction items with
  | nil => simp at hit
  | cons x rest ih =>
    rw [List.nodup_cons] at hnd
    obtain ⟨hx, hnd'⟩ := hnd
    rcases List.mem_cons.1 hit with rfl | hit'
    · have hnil : (buildScenarios f rest).filter
          (fun s => s.food_item_name == it.1 && s.food_item_category == it.2) = [] := by
        rw [List.filter_eq_nil_iff]
        intro s hs
        have hpair := mem_buildScenarios f rest s hs
        simp only [Bool.and_eq_true, beq_iff_eq]
        rintro ⟨h1, h2⟩
        exact hx (by rwa [show it = (s.food_item_name, s.food_item_category) from
          by rw [h1, h2]] )
      simp [buildScenarios, List.filter_cons, mkScenario, hnil]
    · have hne1 : ¬(x.1 = it.1 ∧ x.2 = it.2) := by
        rintro ⟨h1, h2⟩
        exact hx (by rwa [show it = x from by
          rcases it with ⟨a, b⟩; rcases x with ⟨c, d⟩; simp_all] at hit')
      simp only [buildScenarios, List.filter_cons, mkScenario, beq_iff_eq,
        Bool.and_eq_true]
      rw [if_neg (by simpa using hne1), if_neg (by simpa using hne1)]
      exact ih hnd' hit'

/-- C1's core: with distinct item names, grouping the scored rows by one
item's name selects exactly its two annotated rows. -/
theorem scored_filter (f : Facts) (g : Scenario → ℚ)
    (items : List (String × String)) (hnd : (items.map Prod.fst).Nodup)
    (it : String × String) (hit : it ∈ items) :
    (((buildScenarios f items).map (fun s => (s.food_item_name, g s))).filter
        (fun p => p.1 == it.1))
      = [(it.1, g (mkScenario f it "Dine In")), (it.1, g (mkScenario f it "Take Away"))] := by
  induction items with
  | nil => simp at hit
  | cons x rest ih =>
    rw [List.map_cons, List.nodup_cons] at hnd
    obtain ⟨hx, hnd'⟩ := hnd
    rcases List.mem_cons.1 hit with rfl | hit'
    · have hnil : (((buildScenarios f rest).map
          (fun s => (s.food_item_name, g s))).filter (fun p => p.1 == it.1)) = [] := by
        rw [List.filter_eq_nil_iff]
        intro p hp
        have := mem_buildScenarios_annotated f g rest p hp
        simp only [beq_iff_eq]
        intro h1
        exact hx (h1 ▸ this)
      simp [buildScenarios, List.filter_cons, mkScenario, hnil]
    · have hname : x.1 ≠ it.1 := by
        intro h
        exact hx (h ▸ List.mem_map.2 ⟨it, hit', rfl⟩)
      simp only [buildScenarios, List.map_cons, List.filter_cons, mkScenario,
        beq_iff_eq]
      rw [if_neg (by simpa using hname), if_neg (by simpa using hname)]
      exact ih hnd' hit'

/-- Membership in the pivot-key list `(name, order type)` of the scenario frame. -/
theorem keys_mem (f : Facts) (items : List (String × String)) (n ot : String) :
    (n, ot) ∈ (buildScenarios f items).map (fun s => (s.food_item_name, s.order_type))
      ↔ n ∈ items.map Prod.fst ∧ (ot = "Dine In" ∨ ot = "Take Away") := by
  induction items with
  | nil => simp [buildScenarios]
  | cons x rest ih =>
    have hunf : (buildScenarios f (x :: rest)).map (fun s => (s.food_item_name, s.order_type))
        = (x.1, "Dine In") :: (x.1, "Take Away")
            :: (buildScenarios f rest).map (fun s => (s.food_item_name, s.order_type)) := rfl
    rw [hunf, List.map_cons]
    constructor
    · intro h
      rcases List.mem_cons.1 h with h1 | h1
      · exact ⟨List.mem_cons.2 (Or.inl (congrArg Prod.fst h1)),
          Or.inl (congrArg Prod.snd h1)⟩
      · rcases List.mem_cons.1 h1 with h2 | h2
        · exact ⟨List.mem_cons.2 (Or.inl (congrArg Prod.fst h2)),
            Or.inr (congrArg Prod.snd h2)⟩
        · have h3 := ih.1 h2
          exact ⟨List.mem_cons.2 (Or.inr h3.1), h3.2⟩
    · rintro ⟨h1, h2⟩
      rcases List.mem_cons.1 h1 with h3 | h3
      · rcases h2 with rfl | rfl
        · exact List.mem_cons.2 (Or.inl (by rw [h3]))
        · exact List.mem_cons.2 (Or.inr (List.mem_cons.2 (Or.inl (by rw [h3]))))
      · exact List.mem_cons.2 (Or.inr (List.mem_cons.2 (Or.inr (ih.2 ⟨h3, h2⟩))))

/-- The pivot's `(index, columns)` pairs are unique exactly when the item
names of `unique_items` are: a name carried by two `(name, category)` pairs
duplicates both of its keys. -/
theorem keys_nodup_iff (f : Facts) (items : List (String × String)) :
    ((buildScenarios f items).map (fun s => (s.food_item_name, s.order_type))).Nodup
      ↔ (items.map Prod.fst).Nodup := by
  induction items with
  | nil => simp [buildScenarios]
  | cons x rest ih =>
    have hunf : (buildScenarios f (x :: rest)).map (fun s => (s.food_item_name, s.order_type))
        = (x.1, "Dine In") :: (x.1, "Take Away")
            :: (buildScenarios f rest).map (fun s => (s.food_item_name, s.order_type)) := rfl
    rw [hunf, List.map_cons, List.nodup_cons, List.nodup_cons, List.nodup_cons]
    constructor
    · rintro ⟨h1, h2, h3⟩
      exact ⟨fun hmem => h2 ((keys_mem f rest x.1 "Take Away").2 ⟨hmem, Or.inr rfl⟩),
        ih.1 h3⟩
    · rintro ⟨h1, h2⟩
      refine ⟨?_, ?_, ih.2 h2⟩
      · intro hmem
        rcases List.mem_cons.1 hmem with h3 | h3
        · have h4 : ("Dine In" : String) = "Take Away" := congrArg Prod.snd h3
          exact absurd h4 (by decide)
        · exact h1 ((keys_mem f rest x.1 "Dine In").1 h3).1
      · intro hmem
        exact h1 ((keys_mem f rest x.1 "Take Away").1 hmem).1

/-- With distinct item names, deduplicating the doubled name column of the
scenario frame recovers the item names in menu order. -/
theorem dropDupAux_doubled (f : Facts) :
    ∀ (items : List (String × String)) (seen : List String),
      (items.map Prod.fst).Nodup → (∀ x ∈ items.map Prod.fst, x ∉ seen) →
      dropDupAux seen ((buildScenarios f items).map (·.food_item_name))
        = items.map Prod.fst := by
  intro items
  induction items with
  | nil => intro seen _ _; simp [buildScenarios, dropDupAux]
  | cons x rest ih =>
    intro seen hnd hseen
    rw [List.map_cons, List.nodup_cons] at hnd
    obtain ⟨hx, hnd'⟩ := hnd
    have hxs : x.1 ∉ seen := hseen x.1 (by simp)
    simp only [buildScenarios, List.map_cons, mkScenario, dropDupAux, if_neg hxs,
      if_pos (List.mem_cons_self x.1 seen)]
    congr 1
    refine ih (x.1 :: seen) hnd' ?_
    intro y hy
    simp only [List.mem_cons]
    rintro (rfl | hys)
    · exact hx hy
    · exact hseen y (List.mem_cons_of_mem _ hy) hys

theorem dropDuplicates_doubled (f : Facts) (items : List (String × String))
    (hnd : (items.map Prod.fst).Nodup) :
    dropDuplicates ((buildScenarios f items).map (·.food_item_name))
      = items.map Prod.fst :=
  dropDupAux_doubled f items [] hnd (by simp)

/-! ## Lemmas: aggregation -/

theorem map_fst_pairs (l : List String) (g : String → ℚ) :
    (l.map (fun n => (n, g n))).map Prod.fst = l := by
  induction l with
  | nil => rfl
  | cons x xs ih => simp [ih]

theorem groupMeans_map_fst (scored : List (String × ℚ)) :
    (groupMeans scored).map Prod.fst
      = sortStrings (dropDuplicates (scored.map Prod.fst)) := by
  unfold groupMeans
  exact map_fst_pairs _ _

theorem mem_groupMeans (scored : List (String × ℚ)) (p : String × ℚ)
    (hp : p ∈ groupMeans scored) :
    p.1 ∈ scored.map Prod.fst
      ∧ p.2 = listMean ((scored.filter (fun q => q.1 == p.1)).map Prod.snd) := by
  obtain ⟨n, hn, rfl⟩ := List.mem_map.1 hp
  refine ⟨?_, rfl⟩
  exact (mem_dropDuplicates _ _).1 ((sortStrings_perm _).mem_iff.1 hn)

theorem listMean_pair (a b : ℚ) : listMean [a, b] = (a + b) / 2 := by
  simp [listMean]

theorem pivotDetailed_eq_some (rows : List (String × String × ℚ))
    (piv : List (String × ℚ × ℚ)) (h : pivotDetailed rows = some piv) :
    (rows.map (fun r => (r.1, r.2.1))).Nodup
      ∧ piv = (sortStrings (dropDuplicates (rows.map Prod.fst))).map
          (fun n => (n, pivotCell rows n "Dine In", pivotCell rows n "Take Away")) := by
  by_cases hnd : (rows.map (fun r => (r.1, r.2.1))).Nodup
  · refine ⟨hnd, ?_⟩
    rw [pivotDetailed, if_pos hnd] at h
    exact (Option.some.inj h).symm
  · rw [pivotDetailed, if_neg hnd] at h
    exact absurd h (by simp)

theorem pivotDetailed_eq_none (rows : List (String × String × ℚ))
    (hnd : ¬ (rows.map (fun r => (r.1, r.2.1))).Nodup) :
    pivotDetailed rows = none := by
  rw [pivotDetailed, if_neg hnd]

theorem pivotCell_nonneg (rows : List (String × String × ℚ)) (n ot : String)
    (h : ∀ r ∈ rows, 0 ≤ r.2.2) : 0 ≤ pivotCell rows n ot := by
  unfold pivotCell
  cases hf : rows.find? (fun r => r.1 == n && r.2.1 == ot) with
  | none => simp
  | some r => simpa using h r (List.mem_of_find?_eq_some hf)

/-! ## Lemmas: percentage formatting -/

theorem str_data_append (a b : String) : (a ++ b).data = a.data ++ b.data := rfl

theorem natDigitChar_isDigit (d : Nat) (h : d ≤ 9) : (natDigitChar d).isDigit = true := by
  interval_cases d <;> decide

theorem natDigitsAux_spec (fuel : Nat) :
    ∀ n, n < fuel →
      natDigitsAux fuel n ≠ [] ∧ ∀ c ∈ natDigitsAux fuel n, c.isDigit = true := by
  induction fuel with
  | zero => intro n h; omega
  | succ fuel ih =>
    intro n h
    by_cases h10 : n < 10
    · rw [natDigitsAux, if_pos h10]
      refine ⟨by simp, ?_⟩
      intro c hc
      rw [List.mem_singleton] at hc
      exact hc ▸ natDigitChar_isDigit n (by omega)
    · rw [natDigitsAux, if_neg h10]
      have hdiv : n / 10 < fuel := by
        have h1 : n / 10 < n := Nat.div_lt_self (by omega) (by omega)
        omega
      obtain ⟨h1, h2⟩ := ih (n / 10) hdiv
      refine ⟨by simp, ?_⟩
      intro c hc
      rcases List.mem_append.1 hc with hc' | hc'
      · exact h2 c hc'
      · rw [List.mem_singleton] at hc'
        exact hc' ▸ natDigitChar_isDigit (n % 10) (by omega)

theorem natDecStr_spec (n : Nat) :
    (natDecStr n).data ≠ [] ∧ ∀ c ∈ (natDecStr n).data, c.isDigit = true :=
  natDigitsAux_spec (n + 1) n (by omega)

theorem patRest_append (ws : List Char) (hws : ∀ c ∈ ws, c.isDigit = true)
    (a b : Char) (ha : a.isDigit = true) (hb : b.isDigit = true) :
    patRest (ws ++ '.' :: a :: b :: ['%']) = true := by
  induction ws with
  | nil => simp [patRest, patTail, ha, hb]
  | cons c cs ih =>
    have hc := hws c (List.mem_cons_self c cs)
    have hcdot : ¬ c = '.' := by
      intro h
      rw [h] at hc
      exact absurd hc (by decide)
    rw [List.cons_append, patRest, if_neg hcdot, hc,
      ih (fun x hx => hws x (List.mem_cons_of_mem _ hx))]
    rfl

theorem percentPattern_core (w f : Nat) (hf : f < 100) :
    percentPatternB (natDecStr w ++ "." ++ twoDigitStr f ++ "%") = true := by
  obtain ⟨hne, hdig⟩ := natDecStr_spec w
  cases hw : (natDecStr w).data with
  | nil => exact absurd hw hne
  | cons c cs =>
    have hstr : (natDecStr w ++ "." ++ twoDigitStr f ++ "%").data
        = c :: (cs ++ '.' :: natDigitChar (f / 10) :: natDigitChar (f % 10) :: ['%']) := by
      rw [str_data_append, str_data_append, str_data_append, hw]
      simp [twoDigitStr]
    unfold percentPatternB
    rw [hstr]
    show (c.isDigit && patRest (cs ++ '.' :: natDigitChar (f / 10)
      :: natDigitChar (f % 10) :: ['%'])) = true
    have hcd : c.isDigit = true := hdig c (by rw [hw]; exact List.mem_cons_self c cs)
    have hcs : ∀ x ∈ cs, x.isDigit = true := fun x hx =>
      hdig x (by rw [hw]; exact List.mem_cons_of_mem _ hx)
    rw [hcd, patRest_append cs hcs _ _ (natDigitChar_isDigit _ (by omega))
      (natDigitChar_isDigit _ (by omega))]
    rfl

/-- Any nonnegative rational is formatted by `'{:.2%}'` into a string
matching `\d+\.\d{2}%`. -/
theorem percentPatternB_formatPercent (q : ℚ) (h : 0 ≤ q) :
    percentPatternB (formatPercent q) = true := by
  simp only [formatPercent]
  have hn0 : 0 ≤ round (q * 10000) := by
    rw [round_eq]
    exact Int.floor_nonneg.2 (by linarith)
  rw [if_neg (not_lt.2 hn0)]
  exact percentPattern_core _ _ (Nat.mod_lt _ (by omega))

/-! ## Lemmas: weather lookup and orchestration -/

theorem apiError_ne_outOfRange (m : String) : apiErrorPrefix ++ m ≠ outOfRangeMsg := by
  intro h
  have h2 : (apiErrorPrefix ++ m).data = outOfRangeMsg.data := congrArg String.data h
  rw [str_data_append] at h2
  have h3 : apiErrorPrefix.data ++ m.data
      = 'A' :: ("PI or data parsing error: ".data ++ m.data) := rfl
  have h4 : outOfRangeMsg.data = 'D' :: "ate must be within the next 14 days.".data := rfl
  rw [h3, h4] at h2
  injection h2 with h5 _
  exact absurd h5 (by decide)

/-- The fetched result is never the out-of-range error dict: every error it
can produce carries the `'API or data parsing error: '` prefix. -/
theorem fetchSlice_ne_outOfRange (api : ApiResponse) (hour : Nat) :
    fetchSlice api hour ≠ .error outOfRangeMsg := by
  unfold fetchSlice
  split
  · intro hcontra
    exact apiError_ne_outOfRange _ (by injection hcontra)
  · split
    · intro hcontra
      exact apiError_ne_outOfRange _ (by injection hcontra)
    · split
      · intro hcontra
        exact apiError_ne_outOfRange _ (by injection hcontra)
      · simp

/-- If the window check passes, the outbound call is made and the result is
never the out-of-range error. -/
theorem ghwf_in_range (api : ApiResponse) (today target : Date) (hour : Nat)
    (h : 0 < rataDie target - rataDie today + 1 ∧ rataDie target - rataDie today + 1 ≤ 14) :
    get_hourly_weather_forecast api today target hour = (true, fetchSlice api hour) := by
  simp only [get_hourly_weather_forecast]
  rw [if_pos h]

theorem ghwf_out_of_range (api : ApiResponse) (today target : Date) (hour : Nat)
    (h : ¬(0 < rataDie target - rataDie today + 1 ∧ rataDie target - rataDie today + 1 ≤ 14)) :
    get_hourly_weather_forecast api today target hour = (false, .error outOfRangeMsg) := by
  simp only [get_hourly_weather_forecast]
  rw [if_neg h]

/-- A successful weather result implies the outbound call was made. -/
theorem ghwf_ok (api : ApiResponse) (today target : Date) (hour : Nat)
    (slice : WeatherSlice)
    (h : (get_hourly_weather_forecast api today target hour).2 = .ok slice) :
    get_hourly_weather_forecast api today target hour = (true, .ok slice) := by
  by_cases hr : 0 < rataDie target - rataDie today + 1
      ∧ rataDie target - rataDie today + 1 ≤ 14
  · rw [ghwf_in_range api today target hour hr] at h ⊢
    simp only at h
    rw [h]
  · rw [ghwf_out_of_range api today target hour hr] at h
    exact absurd h (by simp)

theorem gp_parse_none (env : Env) (req : Request)
    (h : parseDate req.target_date = none) :
    generate_predictions env req = (false, .error invalidDateMsg) := by
  unfold generate_predictions
  rw [h]

theorem gp_weather_error (env : Env) (req : Request) (target : Date) (m : String)
    (hp : parseDate req.target_date = some target)
    (hw : (get_hourly_weather_forecast env.api env.today target req.target_hour).2
      = .error m) :
    generate_predictions env req
      = ((get_hourly_weather_forecast env.api env.today target req.target_hour).1,
          .error m) := by
  unfold generate_predictions
  rw [hp]
  show (match get_hourly_weather_forecast env.api env.today target req.target_hour with
    | (called, WeatherResult.error m) => (called, Result.error m)
    | (called, WeatherResult.ok slice) => (called, gpCore env req target slice))
      = ((get_hourly_weather_forecast env.api env.today target req.target_hour).1,
          Result.error m)
  rcases hg : get_hourly_weather_forecast env.api env.today target req.target_hour
    with ⟨c, w⟩
  rw [hg] at hw
  simp only at hw
  subst hw
  rfl

theorem gp_ok (env : Env) (req : Request) (target : Date) (slice : WeatherSlice)
    (hp : parseDate req.target_date = some target)
    (hw : (get_hourly_weather_forecast env.api env.today target req.target_hour).2
      = .ok slice) :
    generate_predictions env req = (true, gpCore env req target slice) := by
  unfold generate_predictions
  rw [hp]
  show (match get_hourly_weather_forecast env.api env.today target req.target_hour with
    | (called, WeatherResult.error m) => (called, Result.error m)
    | (called, WeatherResult.ok slice) => (called, gpCore env req target slice))
      = (true, gpCore env req target slice)
  rw [ghwf_ok env.api env.today target req.target_hour slice hw]

theorem gpCore_output (env : Env) (req : Request) (target : Date)
    (slice : WeatherSlice) (piv : List (String × ℚ × ℚ))
    (hne : scenariosOf env req target slice ≠ [])
    (hpiv : detailedOf env req target slice = some piv) :
    gpCore env req target slice = .output (successOutput env req target slice piv) := by
  unfold gpCore
  rw [if_neg hne, hpiv]

theorem gpCore_output_inv (env : Env) (req : Request) (target : Date)
    (slice : WeatherSlice) (o : Output)
    (h : gpCore env req target slice = .output o) :
    scenariosOf env req target slice ≠ []
      ∧ ∃ piv, detailedOf env req target slice = some piv
          ∧ o = successOutput env req target slice piv := by
  unfold gpCore at h
  by_cases hne : scenariosOf env req target slice = []
  · rw [if_pos hne] at h
    exact absurd h (by simp)
  · rw [if_neg hne] at h
    cases hd : detailedOf env req target slice with
    | none =>
      rw [hd] at h
      exact absurd h (by simp)
    | some piv =>
      rw [hd] at h
      refine ⟨hne, piv, rfl, ?_⟩
      injection h with h2
      exact h2.symm

theorem gp_output_inv (env : Env) (req : Request) (b : Bool) (o : Output)
    (h : generate_predictions env req = (b, .output o)) :
    ∃ target slice, parseDate req.target_date = some target
      ∧ (get_hourly_weather_forecast env.api env.today target req.target_hour).2
          = .ok slice
      ∧ b = true ∧ gpCore env req target slice = .output o := by
  unfold generate_predictions at h
  cases hp : parseDate req.target_date with
  | none =>
    rw [hp] at h
    have := congrArg Prod.snd h
    exact absurd this (by simp)
  | some target =>
    rw [hp] at h
    have h' : (match get_hourly_weather_forecast env.api env.today target req.target_hour with
      | (called, WeatherResult.error m) => (called, Result.error m)
      | (called, WeatherResult.ok slice) => (called, gpCore env req target slice))
        = (b, Result.output o) := h
    clear h
    rcases hg : get_hourly_weather_forecast env.api env.today target req.target_hour
      with ⟨c, w⟩
    rw [hg] at h'
    cases w with
    | error m =>
      have := congrArg Prod.snd h'
      exact absurd this (by simp)
    | ok slice =>
      have h1 : c = b := congrArg Prod.fst h'
      have h2 : gpCore env req target slice = .output o := congrArg Prod.snd h'
      have h3 := ghwf_ok env.api env.today target req.target_hour slice
        (by rw [hg])
      rw [hg] at h3
      have h4 : c = true := (congrArg Prod.fst h3)
      exact ⟨target, slice, rfl, by rw [hg], by rw [← h1, h4], h2⟩

/-! ## Lemmas: pipeline compositions and schema alignment -/

/-- Projecting the pivot keys out of the scored triples gives the scenario
frame's `(name, order type)` column pair. -/
theorem scored_keys_comp (env : Env) (req : Request) (target : Date)
    (slice : WeatherSlice) :
    (((scoredOf env req target slice).map
        (fun p => (p.1.food_item_name, p.1.order_type, p.2))).map
      (fun r => (r.1, r.2.1)))
      = (scenariosOf env req target slice).map
          (fun s => (s.food_item_name, s.order_type)) := by
  unfold scoredOf
  rw [List.map_map, List.map_map]
  rfl

/-- The scored name/probability pairs are the per-scenario annotation of the
frame by `rowProb`. -/
theorem scoredNames_comp (env : Env) (req : Request) (target : Date)
    (slice : WeatherSlice) :
    ((scoredOf env req target slice).map (fun p => (p.1.food_item_name, p.2)))
      = (scenariosOf env req target slice).map
          (fun s => (s.food_item_name, rowProb env (ctxOf env req target slice) s)) := by
  unfold scoredOf
  rw [List.map_map]
  rfl

/-- The scored triples' names are the scenario names. -/
theorem scored_triples_fst (env : Env) (req : Request) (target : Date)
    (slice : WeatherSlice) :
    (((scoredOf env req target slice).map
        (fun p => (p.1.food_item_name, p.1.order_type, p.2))).map Prod.fst)
      = (scenariosOf env req target slice).map (·.food_item_name) := by
  unfold scoredOf
  rw [List.map_map, List.map_map]
  rfl

/-- A successful pivot forces the item names of `unique_items` to be distinct. -/
theorem success_names_nodup (env : Env) (req : Request) (target : Date)
    (slice : WeatherSlice) (piv : List (String × ℚ × ℚ))
    (hpiv : detailedOf env req target slice = some piv) :
    ((dropDuplicates env.menu).map Prod.fst).Nodup := by
  unfold detailedOf at hpiv
  obtain ⟨hnd, _⟩ := pivotDetailed_eq_some _ _ hpiv
  rw [scored_keys_comp] at hnd
  unfold scenariosOf at hnd
  exact (keys_nodup_iff _ _).1 hnd

theorem map_fst_triples (l : List String) (g h : String → ℚ) :
    (l.map (fun n => (n, g n, h n))).map Prod.fst = l := by
  induction l with
  | nil => rfl
  | cons x xs ih => simp [ih]

theorem lookup_pairs (g : String → ℚ) (c : String) :
    ∀ (schema : List String), c ∈ schema →
      (schema.map (fun x => (x, g x))).lookup c = some (g c) := by
  intro schema
  induction schema with
  | nil => intro h; simp at h
  | cons d rest ih =>
    intro hc
    by_cases hcd : c = d
    · subst hcd
      simp [List.lookup]
    · rcases List.mem_cons.1 hc with rfl | hc'
      · simp [List.lookup]
      · simp only [List.map_cons, List.lookup]
        rw [show (c == d) = false from beq_eq_false_iff_ne.2 hcd]
        exact ih hc'

theorem lookup_eq_none_of_not_mem_keys (c : String) :
    ∀ (cells : List (String × ℚ)), c ∉ cells.map Prod.fst →
      cells.lookup c = none := by
  intro cells
  induction cells with
  | nil => intro _; rfl
  | cons kv rest ih =>
    intro hc
    rw [List.map_cons, List.mem_cons] at hc
    push_neg at hc
    simp only [List.lookup]
    rw [show (c == kv.1) = false from beq_eq_false_iff_ne.2 hc.1]
    exact ih hc.2

/-- The cell keys of an encoded row are exactly the encoded column list. -/
theorem encodedRow_keys (ctx : Ctx) (s : Scenario) :
    (encodedRow ctx s).map Prod.fst = encodedCols ctx := by
  simp only [encodedRow, encodedCols, numericCells, dummyCells, List.map_map,
    List.map_append, List.map_cons, List.map_nil]
  rfl

/-! ## Lemmas: concrete arithmetic facts for the fixtures -/

theorem listMean_zero_pair : listMean [(0 : ℚ), 0] = 0 := by
  norm_num [listMean]

theorem formatPercent_zero : formatPercent 0 = "0.00%" := by
  unfold formatPercent
  rw [show round ((0 : ℚ) * 10000) = 0 by simp]
  decide

theorem formatPercent_example : formatPercent (7325 / 10000) = "73.25%" := by
  unfold formatPercent
  rw [show round ((7325 / 10000 : ℚ) * 10000) = (7325 : ℤ) by
    rw [show ((7325 : ℚ) / 10000) * 10000 = ((7325 : ℤ) : ℚ) by norm_num]
    exact round_intCast 7325]
  decide

/-! ## Claim theorems -/

/-- C5 (counterexample): it is NOT the case that every date string whose
format is not exactly `YYYY-MM-DD` is rejected.  `"2024-1-5"` is not in
zero-padded `YYYY-MM-DD` form, yet `strptime('%Y-%m-%d')` accepts it, the
outbound weather call IS made (first component `true`), and the result is
not the invalid-date error. -/
theorem C5_date_counterexample :
    specExactFormat "2024-1-5" = false
      ∧ parseDate "2024-1-5" = some ⟨2024, 1, 5⟩
      ∧ (generate_predictions envJan reqLax).1 = true
      ∧ (generate_predictions envJan reqLax).2 ≠ Result.error invalidDateMsg := by
  refine ⟨by decide, by decide, by decide, by decide⟩

/-- C5 (amended): for every input date string that the `%Y-%m-%d` parse
rejects (four-digit year, one-or-two-digit month and day, valid calendar
date — e.g. `"25-12-2024"` is rejected, but the non-zero-padded
`"2024-1-5"` is accepted), the prediction service returns the
invalid-date error and no outbound weather call is made. -/
theorem C5_invalid_date (env : Env) (req : Request)
    (h : parseDate req.target_date = none) :
    generate_predictions env req = (false, .error invalidDateMsg) :=
  gp_parse_none env req h

theorem C5_invalid_date_witness :
    parseDate "25-12-2024" = none
      ∧ generate_predictions env0 reqBad = (false, .error invalidDateMsg) :=
  ⟨by decide, C5_invalid_date env0 reqBad (by decide)⟩

/-- C6: the weather lookup computes the day-offset as
`(target − today) + 1` and returns the out-of-range error exactly when that
offset is not in `(0, 14]`; in that case no outbound call is made (first
component `false`) and `generate_predictions` returns the error before any
scoring, with no outbound call. -/
theorem C6_offset_window :
    (∀ (api : ApiResponse) (today target : Date) (hour : Nat),
      ((get_hourly_weather_forecast api today target hour).2 = .error outOfRangeMsg
        ↔ ¬(0 < rataDie target - rataDie today + 1
              ∧ rataDie target - rataDie today + 1 ≤ 14))
      ∧ (¬(0 < rataDie target - rataDie today + 1
              ∧ rataDie target - rataDie today + 1 ≤ 14)
          → get_hourly_weather_forecast api today target hour
              = (false, .error outOfRangeMsg)))
    ∧ (∀ (env : Env) (req : Request) (target : Date),
        parseDate req.target_date = some target →
        ¬(0 < rataDie target - rataDie env.today + 1
            ∧ rataDie target - rataDie env.today + 1 ≤ 14) →
        generate_predictions env req = (false, .error outOfRangeMsg)) := by
  constructor
  · intro api today target hour
    by_cases hr : 0 < rataDie target - rataDie today + 1
        ∧ rataDie target - rataDie today + 1 ≤ 14
    · rw [ghwf_in_range api today target hour hr]
      simp only
      exact ⟨⟨fun h => absurd h (fetchSlice_ne_outOfRange api hour),
        fun h => absurd hr h⟩, fun h => absurd hr h⟩
    · rw [ghwf_out_of_range api today target hour hr]
      exact ⟨⟨fun _ => hr, fun _ => rfl⟩, fun _ => rfl⟩
  · intro env req target hp hr
    have hw : (get_hourly_weather_forecast env.api env.today target req.target_hour).2
        = .error outOfRangeMsg := by
      rw [ghwf_out_of_range env.api env.today target req.target_hour hr]
    rw [gp_weather_error env req target outOfRangeMsg hp hw,
      ghwf_out_of_range env.api env.today target req.target_hour hr]

theorem C6_offset_window_witness :
    generate_predictions env0 reqFar = (false, .error outOfRangeMsg) :=
  C6_offset_window.2 env0 reqFar ⟨2025, 6, 25⟩ (by decide) (by decide)

/-- C7: when the weather lookup fails with any error message, the service
returns exactly that error as its whole result — the `Result.error`
constructor carries only the message, so the response holds neither an
`overall_prediction` nor a `detailed_prediction`, and no feature
building/scoring/aggregation output exists. -/
theorem C7_weather_error_verbatim (env : Env) (req : Request) (target : Date)
    (m : String) (hp : parseDate req.target_date = some target)
    (hw : (get_hourly_weather_forecast env.api env.today target req.target_hour).2
      = .error m) :
    (generate_predictions env req).2 = .error m := by
  rw [gp_weather_error env req target m hp hw]

theorem C7_weather_error_verbatim_witness :
    (generate_predictions envFail req0).2
      = .error "API or data parsing error: boom" :=
  C7_weather_error_verbatim envFail req0 d0 "API or data parsing error: boom"
    (by decide) (by decide)

/-- C9: two requests with equal `target_date`, `target_hour` and
`is_special_event`, evaluated against the same environment (current date,
loaded artifacts, weather behaviour, holiday calendar), produce identical
results. -/
theorem C9_deterministic (env : Env) (r1 r2 : Request)
    (h1 : r1.target_date = r2.target_date)
    (h2 : r1.target_hour = r2.target_hour)
    (h3 : r1.is_special_event = r2.is_special_event) :
    generate_predictions env r1 = generate_predictions env r2 := by
  cases r1 with
  | mk a b c =>
    cases r2 with
    | mk d e f =>
      have hd : a = d := h1
      have he : b = e := h2
      have hf : c = f := h3
      rw [hd, he, hf]

theorem C9_deterministic_witness :
    generate_predictions env0 ⟨"2024-12-25", 0, false⟩
      = generate_predictions env0 ⟨"2024-12-25", 0, false⟩ :=
  C9_deterministic env0 ⟨"2024-12-25", 0, false⟩ ⟨"2024-12-25", 0, false⟩ rfl rfl rfl

/-- C10: distinctness of menu items is computed over full
`(name, category)` pairs (`drop_duplicates` on both columns — visible in
`dropDuplicates env.menu` below), so a name listed under two categories
survives deduplication twice; the pivot then sees duplicate
`(name, order type)` index keys and raises an unhandled exception
(`Result.crash`) instead of returning an error result, and conversely every
successful run forces the deduplicated names to be distinct. -/
theorem C10_duplicate_names :
    (∀ (env : Env) (req : Request) (target : Date) (slice : WeatherSlice),
      parseDate req.target_date = some target →
      (get_hourly_weather_forecast env.api env.today target req.target_hour).2
          = .ok slice →
      ¬ ((dropDuplicates env.menu).map Prod.fst).Nodup →
      (generate_predictions env req).2 = Result.crash)
    ∧ (∀ (env : Env) (req : Request) (b : Bool) (o : Output),
        generate_predictions env req = (b, .output o) →
        ((dropDuplicates env.menu).map Prod.fst).Nodup) := by
  constructor
  · intro env req target slice hp hw hdup
    rw [gp_ok env req target slice hp hw]
    show gpCore env req target slice = Result.crash
    have hkeys : ¬ ((scenariosOf env req target slice).map
        (fun s => (s.food_item_name, s.order_type))).Nodup := by
      intro hk
      unfold scenariosOf at hk
      exact hdup ((keys_nodup_iff _ _).1 hk)
    have hne : scenariosOf env req target slice ≠ [] := by
      intro h0
      rw [h0] at hkeys
      exact hkeys (by simp)
    unfold gpCore
    rw [if_neg hne]
    have hd : detailedOf env req target slice = none := by
      unfold detailedOf
      apply pivotDetailed_eq_none
      rw [scored_keys_comp]
      exact hkeys
    rw [hd]
  · intro env req b o h
    obtain ⟨target, slice, hp, hw, hb, hcore⟩ := gp_output_inv env req b o h
    obtain ⟨hne, piv, hpiv, _⟩ := gpCore_output_inv env req target slice o hcore
    exact success_names_nodup env req target slice piv hpiv

theorem C10_duplicate_names_witness :
    (generate_predictions envDup req0).2 = Result.crash :=
  C10_duplicate_names.1 envDup req0 d0 slice0 (by decide) (by decide) (by decide)

/-- C2: the feature-building step emits exactly two rows per distinct menu
item — one tagged `'Dine In'` and one tagged `'Take Away'`, identical in
every other field — so the frame fed to the model has
`2 × |distinct menu items|` rows. -/
theorem C2_feature_rows :
    ∀ (env : Env) (req : Request) (target : Date) (slice : WeatherSlice),
      (scenariosOf env req target slice).length = 2 * (dropDuplicates env.menu).length
      ∧ (∀ it ∈ dropDuplicates env.menu,
          (scenariosOf env req target slice).filter
              (fun s => s.food_item_name == it.1 && s.food_item_category == it.2)
            = [mkScenario (factsOf env req target slice) it "Dine In",
               mkScenario (factsOf env req target slice) it "Take Away"])
      ∧ (∀ (f : Facts) (it : String × String) (ot : String),
          mkScenario f it ot = { mkScenario f it "Dine In" with order_type := ot }) := by
  intro env req target slice
  refine ⟨length_buildScenarios _ _, ?_, ?_⟩
  · intro it hit
    exact buildScenarios_filter (factsOf env req target slice) (dropDuplicates env.menu)
      (dropDuplicates_nodup env.menu) it hit
  · intro f it ot
    rfl

theorem C2_feature_rows_witness :
    (scenariosOf env0 req0 d0 slice0).length = 2 * (dropDuplicates env0.menu).length
      ∧ (scenariosOf env0 req0 d0 slice0).filter
          (fun s => s.food_item_name == "Pizza" && s.food_item_category == "Main")
        = [mkScenario (factsOf env0 req0 d0 slice0) ("Pizza", "Main") "Dine In",
           mkScenario (factsOf env0 req0 d0 slice0) ("Pizza", "Main") "Take Away"] :=
  ⟨(C2_feature_rows env0 req0 d0 slice0).1,
    (C2_feature_rows env0 req0 d0 slice0).2.1 ("Pizza", "Main") (by decide)⟩

/-- C4: aligning an encoded feature row against the model's column schema
(`reindex(columns=model_columns, fill_value=0)`) satisfies: the aligned
column order is exactly the schema (first and third conjuncts), any schema
column absent from the one-hot expansion carries value `0` in every row
(second conjunct), and any expanded column outside the schema is dropped
(third conjunct). -/
theorem C4_schema_alignment :
    ∀ (rows : List Scenario) (schema : List String) (s : Scenario), s ∈ rows →
      ((reindexRow schema (encodedRow (mkCtx rows) s)).map Prod.fst = schema)
      ∧ (∀ c ∈ schema, c ∉ encodedCols (mkCtx rows) →
          (reindexRow schema (encodedRow (mkCtx rows) s)).lookup c = some 0)
      ∧ (∀ c, c ∉ schema →
          c ∉ (reindexRow schema (encodedRow (mkCtx rows) s)).map Prod.fst) := by
  intro rows schema s _
  have hkeys : (reindexRow schema (encodedRow (mkCtx rows) s)).map Prod.fst = schema :=
    map_fst_pairs schema _
  refine ⟨hkeys, ?_, ?_⟩
  · intro c hc hnot
    have hnone : (encodedRow (mkCtx rows) s).lookup c = none := by
      apply lookup_eq_none_of_not_mem_keys
      rw [encodedRow_keys]
      exact hnot
    have := lookup_pairs
      (fun x => ((encodedRow (mkCtx rows) s).lookup x).getD 0) c schema hc
    rw [reindexRow, this]
    simp [hnone]
  · intro c hc
    rw [hkeys]
    exact hc

theorem C4_schema_alignment_witness :
    "extra_column" ∉ encodedCols (mkCtx [sc0])
      ∧ (reindexRow ["extra_column", "hour"] (encodedRow (mkCtx [sc0]) sc0)).lookup
          "extra_column" = some 0 :=
  ⟨by decide,
    (C4_schema_alignment [sc0] ["extra_column", "hour"] sc0 (by decide)).2.1
      "extra_column" (by decide) (by decide)⟩

/-- C1: on every successful request the overall ranking is obtained by
grouping the scored rows by item name (one entry per distinct item, third
conjunct), giving each item the mean of its two order-type probabilities
(fourth conjunct), sorting descending by that mean (fifth conjunct), and
formatting each probability as a two-decimal percentage string (second
conjunct; e.g. `0.7325 ↦ "73.25%"`, sixth conjunct). -/
theorem C1_overall_ranking (env : Env) (req : Request) (target : Date)
    (slice : WeatherSlice) (piv : List (String × ℚ × ℚ))
    (hp : parseDate req.target_date = some target)
    (hw : (get_hourly_weather_forecast env.api env.today target req.target_hour).2
      = .ok slice)
    (hne : scenariosOf env req target slice ≠ [])
    (hpiv : detailedOf env req target slice = some piv) :
    (generate_predictions env req).2 = .output (successOutput env req target slice piv)
    ∧ (successOutput env req target slice piv).overall_prediction
        = (overallPairs env req target slice).map (fun p => (p.1, formatPercent p.2))
    ∧ List.Perm ((overallPairs env req target slice).map Prod.fst)
        ((dropDuplicates env.menu).map Prod.fst)
    ∧ (∀ p ∈ overallPairs env req target slice,
        ∃ it ∈ dropDuplicates env.menu, it.1 = p.1
          ∧ p.2 = (rowProb env (ctxOf env req target slice)
                (mkScenario (factsOf env req target slice) it "Dine In")
              + rowProb env (ctxOf env req target slice)
                (mkScenario (factsOf env req target slice) it "Take Away")) / 2)
    ∧ List.Pairwise (fun a b : String × ℚ => b.2 ≤ a.2)
        (overallPairs env req target slice)
    ∧ formatPercent (7325 / 10000) = "73.25%" := by
  have hnames := success_names_nodup env req target slice piv hpiv
  have hov : overallPairs env req target slice
      = sortDesc (groupMeans ((scenariosOf env req target slice).map
          (fun s => (s.food_item_name, rowProb env (ctxOf env req target slice) s)))) := by
    unfold overallPairs
    rw [scoredNames_comp]
  refine ⟨?_, rfl, ?_, ?_, ?_, formatPercent_example⟩
  · rw [gp_ok env req target slice hp hw]
    show gpCore env req target slice = _
    exact gpCore_output env req target slice piv hne hpiv
  · rw [hov]
    refine List.Perm.trans (List.Perm.map Prod.fst (sortDesc_perm _)) ?_
    rw [groupMeans_map_fst, List.map_map]
    show List.Perm (sortStrings (dropDuplicates
      ((scenariosOf env req target slice).map (·.food_item_name)))) _
    refine List.Perm.trans (sortStrings_perm _) ?_
    unfold scenariosOf
    rw [dropDuplicates_doubled _ _ hnames]
  · intro p hp'
    rw [hov] at hp'
    have hpg := (sortDesc_perm _).mem_iff.1 hp'
    obtain ⟨hmem, hval⟩ := mem_groupMeans _ p hpg
    rw [List.map_map] at hmem
    obtain ⟨s, hs, hsp⟩ := List.mem_map.1 hmem
    have hpair : (s.food_item_name, s.food_item_category) ∈ dropDuplicates env.menu :=
      mem_buildScenarios _ _ s hs
    have hit1 : (s.food_item_name, s.food_item_category).1 = p.1 := hsp
    refine ⟨(s.food_item_name, s.food_item_category), hpair, hit1, ?_⟩
    rw [hval, ← hit1]
    have hfil := scored_filter (factsOf env req target slice)
      (rowProb env (ctxOf env req target slice)) (dropDuplicates env.menu) hnames
      (s.food_item_name, s.food_item_category) hpair
    show listMean ((((buildScenarios (factsOf env req target slice)
        (dropDuplicates env.menu)).map
          (fun s => (s.food_item_name, rowProb env (ctxOf env req target slice) s))).filter
        (fun q => q.1 == (s.food_item_name, s.food_item_category).1)).map Prod.snd)
      = _
    rw [hfil]
    rw [show (([((s.food_item_name, s.food_item_category).1,
        rowProb env (ctxOf env req target slice)
          (mkScenario (factsOf env req target slice)
            (s.food_item_name, s.food_item_category) "Dine In")),
        ((s.food_item_name, s.food_item_category).1,
        rowProb env (ctxOf env req target slice)
          (mkScenario (factsOf env req target slice)
            (s.food_item_name, s.food_item_category) "Take Away"))] :
        List (String × ℚ)).map Prod.snd)
      = [rowProb env (ctxOf env req target slice)
          (mkScenario (factsOf env req target slice)
            (s.food_item_name, s.food_item_category) "Dine In"),
         rowProb env (ctxOf env req target slice)
          (mkScenario (factsOf env req target slice)
            (s.food_item_name, s.food_item_category) "Take Away")] from rfl]
    exact listMean_pair _ _
  · rw [hov]
    exact sortDesc_sorted _

theorem C1_overall_ranking_witness :
    (successOutput env0 req0 d0 slice0 piv0).overall_prediction
      = (overallPairs env0 req0 d0 slice0).map (fun p => (p.1, formatPercent p.2)) :=
  (C1_overall_ranking env0 req0 d0 slice0 piv0 (by decide) (by decide) (by decide)
    (by decide)).2.1

/-- C3: on every successful request the detailed breakdown has exactly one
row per distinct menu item (third conjunct), and each row carries both a
dine-in and a takeaway probability (second conjunct; a missing combination
defaults to `0` inside `pivotCell`), each formatted as a percentage string
matching `\d+\.\d{2}%` (fourth conjunct, given that the classifier returns
nonnegative probabilities). -/
theorem C3_detailed_breakdown (env : Env) (req : Request) (target : Date)
    (slice : WeatherSlice) (piv : List (String × ℚ × ℚ))
    (hscore : ∀ v, 0 ≤ env.score v)
    (hp : parseDate req.target_date = some target)
    (hw : (get_hourly_weather_forecast env.api env.today target req.target_hour).2
      = .ok slice)
    (hne : scenariosOf env req target slice ≠ [])
    (hpiv : detailedOf env req target slice = some piv) :
    (generate_predictions env req).2 = .output (successOutput env req target slice piv)
    ∧ (successOutput env req target slice piv).detailed_prediction
        = piv.map (fun r => (r.1, formatPercent r.2.1, formatPercent r.2.2))
    ∧ List.Perm ((successOutput env req target slice piv).detailed_prediction.map
          (fun r => r.1))
        ((dropDuplicates env.menu).map Prod.fst)
    ∧ (∀ r ∈ (successOutput env req target slice piv).detailed_prediction,
        percentPatternB r.2.1 = true ∧ percentPatternB r.2.2 = true) := by
  have hnames := success_names_nodup env req target slice piv hpiv
  have hpiveq := pivotDetailed_eq_some _ _ hpiv
  obtain ⟨hkeys, hpivval⟩ := hpiveq
  have hrows_nonneg : ∀ x ∈ (scoredOf env req target slice).map
      (fun p => (p.1.food_item_name, p.1.order_type, p.2)), 0 ≤ x.2.2 := by
    intro x hx
    obtain ⟨pp, hpp, rfl⟩ := List.mem_map.1 hx
    obtain ⟨s, _, rfl⟩ := List.mem_map.1 hpp
    exact hscore _
  refine ⟨?_, rfl, ?_, ?_⟩
  · rw [gp_ok env req target slice hp hw]
    show gpCore env req target slice = _
    exact gpCore_output env req target slice piv hne hpiv
  · show List.Perm ((piv.map
        (fun r => (r.1, formatPercent r.2.1, formatPercent r.2.2))).map
        (fun r => r.1)) ((dropDuplicates env.menu).map Prod.fst)
    rw [List.map_map]
    show List.Perm (piv.map Prod.fst) _
    rw [hpivval, map_fst_triples]
    rw [scored_triples_fst]
    refine List.Perm.trans (sortStrings_perm _) ?_
    unfold scenariosOf
    rw [dropDuplicates_doubled _ _ hnames]
  · intro r hr
    obtain ⟨q, hq, rfl⟩ := List.mem_map.1 hr
    rw [hpivval] at hq
    obtain ⟨n, _, rfl⟩ := List.mem_map.1 hq
    constructor
    · exact percentPatternB_formatPercent _ (pivotCell_nonneg _ _ _ hrows_nonneg)
    · exact percentPatternB_formatPercent _ (pivotCell_nonneg _ _ _ hrows_nonneg)

theorem C3_detailed_breakdown_witness :
    (generate_predictions env0 req0).2
      = .output (successOutput env0 req0 d0 slice0 piv0) :=
  (C3_detailed_breakdown env0 req0 d0 slice0 piv0 (fun v => le_refl 0) (by decide)
    (by decide) (by decide) (by decide)).1

/-- C8 (counterexample): the claimed menu-load tie order is false.  Under
`env8` the menu is loaded as B before A, both items have the same mean
probability `0` (second conjunct), yet the overall ranking lists A before B
(fourth conjunct) — pandas `groupby` sorts the group keys alphabetically
before the descending probability sort, so ties come out in alphabetical
order, not menu-load order. -/
theorem C8_tie_counterexample :
    (dropDuplicates env8.menu).map Prod.fst = ["B", "A"]
    ∧ overallPairs env8 req0 d0 slice0 = [("A", 0), ("B", 0)]
    ∧ (generate_predictions env8 req0).2
        = Result.output (successOutput env8 req0 d0 slice0 piv8)
    ∧ (successOutput env8 req0 d0 slice0 piv8).overall_prediction
        = [("A", "0.00%"), ("B", "0.00%")] := by
  have hov : overallPairs env8 req0 d0 slice0
      = sortDesc [("A", listMean [(0 : ℚ), 0]), ("B", listMean [(0 : ℚ), 0])] := rfl
  have h2 : overallPairs env8 req0 d0 slice0 = [("A", 0), ("B", 0)] := by
    rw [hov, listMean_zero_pair]
    decide
  refine ⟨by decide, h2, ?_, ?_⟩
  · rw [gp_ok env8 req0 d0 slice0 (by decide) (by decide)]
    show gpCore env8 req0 d0 slice0 = _
    exact gpCore_output env8 req0 d0 slice0 piv8 (by decide) (by decide)
  · show (overallPairs env8 req0 d0 slice0).map (fun p => (p.1, formatPercent p.2)) = _
    rw [h2]
    simp [formatPercent_zero]

/-- C8 (amended): the program does not preserve menu-load order for ties.
The group-by stage re-lists the items in strictly ascending alphabetical
name order before the probability sort (fourth conjunct: the sort input's
keys are strictly ascending; fifth conjunct: those keys are exactly the
distinct item names), and the output's only ordering guarantee is
descending by mean probability (third conjunct).  The relative order of
equal-probability items in the OUTPUT is whatever `sort_values`'
quicksort yields — unstable above numpy's small-array insertion-sort
cutoff — and is therefore left unspecified here: every conjunct below is
invariant under permuting tied elements. -/
theorem C8_tie_order (env : Env) (req : Request) (target : Date)
    (slice : WeatherSlice) (piv : List (String × ℚ × ℚ))
    (hp : parseDate req.target_date = some target)
    (hw : (get_hourly_weather_forecast env.api env.today target req.target_hour).2
      = .ok slice)
    (hne : scenariosOf env req target slice ≠ [])
    (hpiv : detailedOf env req target slice = some piv) :
    (generate_predictions env req).2 = .output (successOutput env req target slice piv)
    ∧ (successOutput env req target slice piv).overall_prediction
        = (overallPairs env req target slice).map (fun p => (p.1, formatPercent p.2))
    ∧ List.Pairwise (fun a b : String × ℚ => b.2 ≤ a.2)
        (overallPairs env req target slice)
    ∧ List.Pairwise (fun u v => stringLt u v = true)
        ((groupMeans ((scoredOf env req target slice).map
            (fun p => (p.1.food_item_name, p.2)))).map Prod.fst)
    ∧ List.Perm ((groupMeans ((scoredOf env req target slice).map
            (fun p => (p.1.food_item_name, p.2)))).map Prod.fst)
        ((dropDuplicates env.menu).map Prod.fst) := by
  have hnames := success_names_nodup env req target slice piv hpiv
  refine ⟨?_, rfl, ?_, ?_, ?_⟩
  · rw [gp_ok env req target slice hp hw]
    show gpCore env req target slice = _
    exact gpCore_output env req target slice piv hne hpiv
  · unfold overallPairs
    exact sortDesc_sorted _
  · rw [groupMeans_map_fst]
    exact sortStrings_pairwise_lt _ (dropDuplicates_nodup _)
  · rw [scoredNames_comp, groupMeans_map_fst, List.map_map]
    show List.Perm (sortStrings (dropDuplicates
      ((scenariosOf env req target slice).map (·.food_item_name)))) _
    refine List.Perm.trans (sortStrings_perm _) ?_
    unfold scenariosOf
    rw [dropDuplicates_doubled _ _ hnames]

theorem C8_tie_order_witness :
    List.Pairwise (fun u v => stringLt u v = true)
      ((groupMeans ((scoredOf env0 req0 d0 slice0).map
          (fun p => (p.1.food_item_name, p.2)))).map Prod.fst) :=
  (C8_tie_order env0 req0 d0 slice0 piv0 (by decide) (by decide) (by decide)
    (by decide)).2.2.2.1

end Predictor
